import Mathlib

set_option maxHeartbeats 1000000

/-!
Shallow embedding of `scripts/tw_news_tracker.py` (TW_Stock_News_Tracker).

External collaborators (the HTTP session, the RSS/XML parser, the RFC-2822
date parser from `email.utils`, the filesystem) are abstracted as function
parameters; everything else is translated from the source.
-/

/-! ## String helpers (Python `str.strip`, substring test `in`) -/

/-- Python `str.strip()` on a list of characters: drop leading and trailing
whitespace. -/
def pyStrip (l : List Char) : List Char :=
  ((l.dropWhile Char.isWhitespace).reverse.dropWhile Char.isWhitespace).reverse

/-- Python `str.strip()` on a `String`. -/
def pyStripStr (s : String) : String :=
  ⟨pyStrip s.data⟩

/-- Python `str.rstrip()` on a `String`: drop trailing whitespace. -/
def pyRstrip (s : String) : String :=
  ⟨(s.data.reverse.dropWhile Char.isWhitespace).reverse⟩

/-- Bool test that `k` is an initial segment of `l`. -/
def listPrefixOf : List Char → List Char → Bool
  | [], _ => true
  | _ :: _, [] => false
  | a :: as, b :: bs => a == b && listPrefixOf as bs

/-- Python substring test `k in t` over lists of characters. -/
def listSubOf (k : List Char) : List Char → Bool
  | [] => listPrefixOf k []
  | c :: cs => listPrefixOf k (c :: cs) || listSubOf k cs

/-! ## Settings (module-level constants, lines 21-30) -/

/-- `TZ_TAIPEI = timezone(timedelta(hours=8))`, as an offset in seconds east
of UTC. -/
def TZ_TAIPEI_OFFSET : Int := 8 * 3600

/-- `DAYS_LOOKBACK = 7` (line 22). -/
def DAYS_LOOKBACK : Nat := 7

/-- `NEWS_PER_STOCK = 3` (line 23). -/
def NEWS_PER_STOCK : Nat := 3

/-- The lookback setting as a function of the process environment: the source
assigns the fixed literal `7` and performs no environment lookup. -/
def daysLookbackOfEnv (_env : String → Option String) : Nat := DAYS_LOOKBACK

/-- The per-stock news cap as a function of the process environment: the
source assigns the fixed literal `3` and performs no environment lookup. -/
def newsPerStockOfEnv (_env : String → Option String) : Nat := NEWS_PER_STOCK

/-- `INCLUDE_KEYWORDS` (line 26). -/
def INCLUDE_KEYWORDS : List (List Char) :=
  ["財報".data, "營收".data, "法說會".data, "EPS".data]

/-- `EXCLUDE_KEYWORDS` (lines 27-30). -/
def EXCLUDE_KEYWORDS : List (List Char) :=
  ["技術分析".data, "K線".data, "均線".data, "籌碼".data, "當沖".data,
   "飆股".data, "短線".data, "波段".data, "多空".data, "目標價".data,
   "操作".data, "選股".data, "盤中".data, "收盤".data, "漲停".data,
   "跌停".data, "買點".data, "賣點".data]

/-! ## KeywordFilter: `_title_passes_filters` (lines 96-109) -/

/-- `_title_passes_filters(title)`. -/
def titlePassesFilters (title : String) : Bool :=
  let t := pyStrip title.data
  if t.isEmpty then false
  else if !(INCLUDE_KEYWORDS.any fun k => listSubOf k t) then false
  else if EXCLUDE_KEYWORDS.any fun k => listSubOf k t then false
  else true

/-- The right-hand side of claim C1 as the spec words it (identity check
included), for a concrete include/exclude configuration equal to the
module constants. -/
def claimC1RhsBool (t name code : List Char) : Bool :=
  let tt := pyStrip t
  !tt.isEmpty
    && (INCLUDE_KEYWORDS.any fun k => listSubOf k t)
    && !(EXCLUDE_KEYWORDS.any fun k => listSubOf k t)
    && (listSubOf name t || listSubOf code t)

/-! ## PubDateParser: `_parse_pubdate` (lines 84-93) -/

/-- A Python `datetime`: `wall` is the wall-clock reading in seconds since
the epoch read as if it were UTC, `tz` is the explicit UTC offset in seconds
(`none` for a naive datetime). -/
structure PyDateTime where
  wall : Int
  tz : Option Int
deriving DecidableEq

/-- The instant an aware datetime denotes (seconds since the epoch). -/
def PyDateTime.instantOf (d : PyDateTime) : Int := d.wall - d.tz.getD 0

/-- `dt.astimezone(tz)` for an aware datetime: same instant, new offset. -/
def astimezone (d : PyDateTime) (off : Int) : PyDateTime :=
  { wall := d.instantOf + off, tz := some off }

/-- `_parse_pubdate(pubdate_str)`. `p` abstracts
`email.utils.parsedate_to_datetime`; `p s = none` models a parse failure
(the raised exception caught on line 92). -/
def parsePubdate (p : String → Option PyDateTime) (s : String) :
    Option PyDateTime :=
  if s.isEmpty then none
  else
    match p s with
    | none => none
    | some dt =>
      let dt1 := if dt.tz.isNone then { dt with tz := some 0 } else dt
      some (astimezone dt1 TZ_TAIPEI_OFFSET)

/-! ## NewsFetcher: `_fetch_google_news_for_stock` (lines 123-167) -/

/-- One `<item>` of the RSS feed after text extraction (lines 139-141). -/
structure FeedEntry where
  title : String
  link : String
  pubdate : String
deriving DecidableEq

/-- The `NewsItem` dataclass (lines 49-55). -/
structure NewsItem where
  stock_code : String
  stock_name : String
  title : String
  url : String
  published : Option PyDateTime
deriving DecidableEq

/-- `cutoff = _now_tpe() - timedelta(days=DAYS_LOOKBACK)` (line 135), at the
level of instants, in seconds. -/
def cutoffOf (now : Int) : Int := now - (DAYS_LOOKBACK : Int) * 86400

/-- `published is not None and published < cutoff` (line 147). Comparison of
two aware datetimes in the same zone compares the instants they denote. -/
def isStale (published : Option PyDateTime) (cutoff : Int) : Bool :=
  match published with
  | some d => decide (d.instantOf < cutoff)
  | none => false

/-- `_resolve_final_url(session, link) if link else ""` (line 150). `resolve`
abstracts the redirect-following request. -/
def finalUrlOf (resolve : String → String) (link : String) : String :=
  if link.isEmpty then "" else resolve link

/-- The `NewsItem(...)` constructed on lines 154-162 for a feed entry. -/
def mkItem (p : String → Option PyDateTime) (resolve : String → String)
    (code name : String) (e : FeedEntry) : NewsItem :=
  { stock_code := code
    stock_name := name
    title := e.title
    url := finalUrlOf resolve e.link
    published := parsePubdate p e.pubdate }

/-- The `for item in root.findall(".//item")` loop of lines 138-165, with the
running `items` list as `acc` and the `break` once `maxItems` are held. -/
def fetchGo (p : String → Option PyDateTime) (resolve : String → String)
    (code name : String) (cutoff : Int) (maxItems : Nat) :
    List FeedEntry → List NewsItem → List NewsItem
  | [], acc => acc
  | e :: es, acc =>
    if !(titlePassesFilters e.title) then
      fetchGo p resolve code name cutoff maxItems es acc
    else if isStale (parsePubdate p e.pubdate) cutoff then
      fetchGo p resolve code name cutoff maxItems es acc
    else if (finalUrlOf resolve e.link).isEmpty then
      fetchGo p resolve code name cutoff maxItems es acc
    else
      let acc2 := acc ++ [mkItem p resolve code name e]
      if maxItems ≤ acc2.length then acc2
      else fetchGo p resolve code name cutoff maxItems es acc2

/-- `_fetch_google_news_for_stock(session, stock_code, stock_name)`.
`getFeed` abstracts `session.get` + `raise_for_status` + XML parsing of
lines 129-132: an error there propagates (there is no try/except). -/
def fetchGoogleNewsForStock (getFeed : Except String (List FeedEntry))
    (p : String → Option PyDateTime) (resolve : String → String)
    (code name : String) (now : Int) : Except String (List NewsItem) :=
  match getFeed with
  | .error e => .error e
  | .ok entries =>
    .ok (fetchGo p resolve code name (cutoffOf now) NEWS_PER_STOCK entries [])

/-- Per-entry conjunction of the three `continue` guards of lines 144-152:
an entry contributes an item exactly when this holds (and the cap is not yet
reached). -/
def entryQualifies (p : String → Option PyDateTime)
    (resolve : String → String) (cutoff : Int) (e : FeedEntry) : Bool :=
  titlePassesFilters e.title
    && !(isStale (parsePubdate p e.pubdate) cutoff)
    && !((finalUrlOf resolve e.link).isEmpty)

/-! ## RevenueFetcher: `_fetch_twse_monthly_revenue` (lines 170-183) -/

/-- One JSON row of the TWSE table: a mapping of field names to string
values, in object order. -/
abbrev Row : Type := List (String × String)

/-- Python `row.get(key, "")` on a `Row`. -/
def rowGet (row : Row) (key : String) : String :=
  match row.find? (fun kv => kv.1 == key) with
  | some kv => kv.2
  | none => ""

/-- Python `out[code] = row` on an insertion-ordered dict: an existing key is
overwritten in place, a new key is appended. -/
def dictInsert : List (String × Row) → String → Row → List (String × Row)
  | [], k, v => [(k, v)]
  | (k0, v0) :: rest, k, v =>
    if k0 = k then (k0, v) :: rest else (k0, v0) :: dictInsert rest k v

/-- `_fetch_twse_monthly_revenue(session)`. `get` abstracts `session.get` +
`raise_for_status` + `.json()` of lines 174-176: an error there propagates
(the function has no try/except). -/
def fetchTwseMonthlyRevenue (get : Except String (List Row)) :
    Except String (List (String × Row)) :=
  match get with
  | .error e => .error e
  | .ok data =>
    .ok (data.foldl
      (fun out row =>
        let code := pyStripStr (rowGet row "公司代號")
        if code.isEmpty then out else dictInsert out code row)
      [])

/-! ## RevenueFieldResolver: `_format_revenue_summary` (lines 186-215) -/

/-- Python `d.get(k)` on an insertion-ordered dict. -/
def dictFind {α : Type} : List (String × α) → String → Option α
  | [], _ => none
  | kv :: rest, k => if kv.1 = k then some kv.2 else dictFind rest k

/-- `_format_revenue_summary(row)` (`none` ~ Python `None`; an empty row is
also falsy in Python, hence the same message). -/
def formatRevenueSummary (row : Option Row) : String :=
  match row with
  | none => "月營收：找不到資料（TWSE OpenAPI 未回傳該公司代號）"
  | some r =>
    if r.isEmpty then "月營收：找不到資料（TWSE OpenAPI 未回傳該公司代號）"
    else
      let month_rev := pyStripStr (rowGet r "當月營收")
      let mom := pyStripStr (rowGet r "上月比較增減(%)")
      let yoy := pyStripStr (rowGet r "去年同月增減(%)")
      let cum_rev := pyStripStr (rowGet r "累計營收")
      let cum_yoy := pyStripStr (rowGet r "前期比較增減(%)")
      let parts :=
        (if month_rev.isEmpty then [] else ["單月 " ++ month_rev])
          ++ (if mom.isEmpty then [] else ["MoM " ++ mom ++ "%"])
          ++ (if yoy.isEmpty then [] else ["YoY " ++ yoy ++ "%"])
      let parts2 :=
        (if cum_rev.isEmpty then [] else ["累計 " ++ cum_rev])
          ++ (if cum_yoy.isEmpty then [] else ["累計YoY " ++ cum_yoy ++ "%"])
      let s1 := if parts.isEmpty then "單月（無數值）"
                else String.intercalate " / " parts
      let s2 := if parts2.isEmpty then "累計（無數值）"
                else String.intercalate " / " parts2
      "月營收：" ++ s1 ++ "；" ++ s2

/-! ## ReportRenderer: `_render_report` (lines 218-276) -/

/-- The URL-dedup loop of lines 227-232 (`seen` set, `url_list` accumulator). -/
def renderUrlListGo (seen : List String) (acc : List String) :
    List NewsItem → List String
  | [] => acc
  | n :: ns =>
    if n.url ∈ seen then renderUrlListGo seen acc ns
    else renderUrlListGo (n.url :: seen) (acc ++ [n.url]) ns

/-- The deduplicated `url_list` of `_render_report`. -/
def renderUrlList (allNews : List NewsItem) : List String :=
  renderUrlListGo [] [] allNews

/-- `by_code.setdefault(n.stock_code, []).append(n)` on an insertion-ordered
dict (line 237). -/
def dictAppend : List (String × List NewsItem) → String → NewsItem →
    List (String × List NewsItem)
  | [], k, n => [(k, [n])]
  | (k0, v0) :: rest, k, n =>
    if k0 = k then (k0, v0 ++ [n]) :: rest
    else (k0, v0) :: dictAppend rest k n

/-- The `by_code` grouping loop of lines 235-237. -/
def byCodeBuild (l : List NewsItem) : List (String × List NewsItem) :=
  l.foldl (fun d n => dictAppend d n.stock_code n) []

/-- `by_code.get(code, [])[:NEWS_PER_STOCK]`: the items rendered under one
stock's heading (lines 264, 270). -/
def sectionItems (allNews : List NewsItem) (code : String) : List NewsItem :=
  ((dictFind (byCodeBuild allNews) code).getD []).take NEWS_PER_STOCK

/-- The lines appended for one stock in the loop of lines 256-274. -/
def stockSectionLines (byCode : List (String × List NewsItem))
    (revenueMap : List (String × Row)) (code name : String) : List String :=
  let items := (dictFind byCode code).getD []
  ["### " ++ code ++ " " ++ name,
   "- 📈 " ++ formatRevenueSummary (dictFind revenueMap code)]
    ++ (if items.isEmpty then ["- 📰（7天內無符合條件新聞）", ""]
        else (items.take NEWS_PER_STOCK).map
              (fun it => "- 📰 [" ++ it.title ++ "](" ++ it.url ++ ")")
            ++ [""])

/-- `_render_report(report_date, all_news, stocks, revenue_map)`; the date is
already formatted as `date_str`. -/
def renderReport (dateStr : String) (allNews : List NewsItem)
    (stocks : List (String × String)) (revenueMap : List (String × Row)) :
    String :=
  let urlList := renderUrlList allNews
  let byCode := byCodeBuild allNews
  let lines :=
    ["# 台股追蹤 — " ++ dateStr, "", "## 📋 Copy URLs for NotebookLM", "",
     "Copy the URLs below and paste them into NotebookLM as sources:", "",
     "```"]
      ++ urlList
      ++ ["```", "", "---", "", "## 📊 詳細報告", ""]
      ++ stocks.flatMap (fun s => stockSectionLines byCode revenueMap s.1 s.2)
  pyRstrip (String.intercalate "\n" lines) ++ "\n"

/-! ## Orchestrator: `main` (lines 301-345) -/

/-- The per-stock loop of lines 321-331: a per-stock fetch error is swallowed
into an empty list (`except Exception: news = []`) and the run continues. -/
def collectNews (fetchNews : String → String → Except String (List NewsItem)) :
    List (String × String) → List NewsItem
  | [] => []
  | (code, name) :: ss =>
    (match fetchNews code name with
     | .error _ => []
     | .ok l => l) ++ collectNews fetchNews ss

/-- The cross-stock URL-dedup loop of lines 334-340. -/
def dedupNewsGo (seen : List String) (acc : List NewsItem) :
    List NewsItem → List NewsItem
  | [] => acc
  | n :: ns =>
    if n.url ∈ seen then dedupNewsGo seen acc ns
    else dedupNewsGo (n.url :: seen) (acc ++ [n]) ns

/-- `deduped` as computed by `main` (lines 333-340). -/
def dedupNews (l : List NewsItem) : List NewsItem :=
  dedupNewsGo [] [] l

/-- `main()`, up to the written report content. `getRevenue` abstracts the
revenue transport, `fetchNews` the per-stock feed fetch; the returned string
is the content written to the dated report file. -/
def mainRun (dateStr : String) (getRevenue : Except String (List Row))
    (fetchNews : String → String → Except String (List NewsItem))
    (stocks : List (String × String)) : Except String String :=
  match fetchTwseMonthlyRevenue getRevenue with
  | .error e => .error e
  | .ok revenueMap =>
    let allNews := collectNews fetchNews stocks
    let deduped := dedupNews allNews
    .ok (renderReport dateStr deduped stocks revenueMap)

/-! ## Spec-modelled: `formatIntLike` (spec §4.3; not present under `src/`) -/

/-- Insert thousands separators into a digit sequence, left to right. -/
def groupThousands : List Char → List Char
  | [] => []
  | c :: cs =>
    c :: (if cs.length % 3 = 0 ∧ cs.length ≠ 0
          then ',' :: groupThousands cs
          else groupThousands cs)

/-- Split at the first `'.'`, if any. -/
def splitDot (cs : List Char) : Option (List Char × List Char) :=
  match cs.dropWhile (fun c => c != '.') with
  | '.' :: fp => some (cs.takeWhile (fun c => c != '.'), fp)
  | _ => none

/-- Modelled from the spec: the numeric formatter `formatIntLike(s)` of the
RevenueFieldResolver (spec §4.3) belongs to a script variant that is not
under `src/`. Following the spec's words: an all-digits string is rendered
with thousands separators; a digits-dot-zeros string is truncated to its
integer part and rendered with thousands separators; any other string is
returned unchanged. -/
def formatIntLike (s : String) : String :=
  let cs := s.data
  if !cs.isEmpty && cs.all (fun c => c.isDigit) then ⟨groupThousands cs⟩
  else
    match splitDot cs with
    | some (ip, fp) =>
      if !ip.isEmpty && ip.all (fun c => c.isDigit)
          && !fp.isEmpty && fp.all (fun c => c == '0')
      then ⟨groupThousands ip⟩
      else s
    | none => s

/-! ## Spec-side reference definitions -/

/-- Reference definition for "each distinct key exactly once, in order of
first appearance": keep the head, drop later elements with the same key. -/
def firstOccurrencesBy {α : Type} (key : α → String) : List α → List α
  | [] => []
  | x :: xs =>
    x :: firstOccurrencesBy key (xs.filter fun y => key y != key x)
termination_by l => l.length
decreasing_by
  exact Nat.lt_succ_of_le (List.length_filter_le _ _)

/-! # Lemmas and theorems -/

/-! ## Substring facts -/

theorem listPrefixOf_iff : ∀ (k l : List Char), listPrefixOf k l = true ↔ k <+: l
  | [], l => by simp [listPrefixOf]
  | a :: as, [] => by simp [listPrefixOf]
  | a :: as, b :: bs => by
    simp [listPrefixOf, listPrefixOf_iff as bs, List.cons_prefix_cons]

theorem listSubOf_iff : ∀ (k l : List Char), listSubOf k l = true ↔ k <:+: l
  | k, [] => by cases k <;> simp [listSubOf, listPrefixOf]
  | k, c :: cs => by
    simp [listSubOf, listPrefixOf_iff, listSubOf_iff k cs, List.infix_cons_iff]

theorem prefixSub {a b : List Char} (h : a <+: b) : a <:+: b := by
  obtain ⟨t, rfl⟩ := h
  exact ⟨[], t, by simp⟩

theorem suffixSub {a b : List Char} (h : a <:+ b) : a <:+: b := by
  obtain ⟨s, rfl⟩ := h
  exact ⟨s, [], by simp⟩

theorem subReverse {a b : List Char} (h : a <:+: b) :
    a.reverse <:+: b.reverse := by
  obtain ⟨s, t, rfl⟩ := h
  exact ⟨t.reverse, s.reverse, by simp⟩

theorem dropWhileSuffix (p : Char → Bool) :
    ∀ l : List Char, l.dropWhile p <:+ l
  | [] => by simp [List.dropWhile]
  | c :: cs => by
    cases h : p c with
    | true =>
      have := dropWhileSuffix p cs
      obtain ⟨s, hs⟩ := this
      exact ⟨c :: s, by simp [List.dropWhile, h, hs]⟩
    | false => simp [List.dropWhile, h]

theorem subOf_dropWhile_ws {k : List Char} (hne : k ≠ [])
    (hw : ∀ c ∈ k, c.isWhitespace = false) :
    ∀ {l : List Char}, k <:+: l → k <:+: l.dropWhile Char.isWhitespace := by
  intro l
  induction l with
  | nil => intro h; simpa [List.dropWhile] using h
  | cons c cs ih =>
    intro h
    cases hc : Char.isWhitespace c with
    | false => simpa [List.dropWhile, hc] using h
    | true =>
      rw [List.dropWhile, hc]
      apply ih
      rcases List.infix_cons_iff.mp h with hpre | hsub
      · exfalso
        cases k with
        | nil => exact hne rfl
        | cons a as =>
          have hac := (List.cons_prefix_cons.mp hpre).1
          have ha := hw a (by simp)
          rw [hac, hc] at ha
          exact Bool.noConfusion ha
      · exact hsub

theorem subOf_pyStrip_iff {k l : List Char} (hne : k ≠ [])
    (hw : ∀ c ∈ k, c.isWhitespace = false) :
    k <:+: pyStrip l ↔ k <:+: l := by
  constructor
  · intro h
    refine h.trans ?_
    have h1 : (l.dropWhile Char.isWhitespace) <:+ l := dropWhileSuffix _ l
    have h2 : ((l.dropWhile Char.isWhitespace).reverse.dropWhile
        Char.isWhitespace) <:+ (l.dropWhile Char.isWhitespace).reverse :=
      dropWhileSuffix _ _
    obtain ⟨a, ha⟩ := h2
    have hpre : pyStrip l <+: l.dropWhile Char.isWhitespace := by
      refine ⟨a.reverse, ?_⟩
      have := congrArg List.reverse ha
      simpa [pyStrip] using this
    exact (prefixSub hpre).trans (suffixSub h1)
  · intro h
    have h1 := subOf_dropWhile_ws hne hw h
    have h2 := subReverse h1
    have h3 : k.reverse ≠ [] := by simpa using hne
    have hw' : ∀ c ∈ k.reverse, c.isWhitespace = false := by simpa using hw
    have h4 := subOf_dropWhile_ws h3 hw' h2
    have h5 := subReverse h4
    simpa [pyStrip] using h5

theorem include_keywords_shape :
    ∀ k ∈ INCLUDE_KEYWORDS, k ≠ [] ∧ ∀ c ∈ k, c.isWhitespace = false := by
  decide

theorem exclude_keywords_shape :
    ∀ k ∈ EXCLUDE_KEYWORDS, k ≠ [] ∧ ∀ c ∈ k, c.isWhitespace = false := by
  decide

/-! ## C1: the keyword filter -/

/-- C1 counterexample: the title "財報" passes `_title_passes_filters`, yet
the claim's right-hand side (which additionally requires the title to
contain the stock's name "台積電" or code "2330") is false for it, so the
claimed equivalence fails on this input. -/
theorem titlePassesFilters_claim_false :
    titlePassesFilters "財報" = true
      ∧ claimC1RhsBool "財報".data "台積電".data "2330".data = false := by
  constructor
  · decide
  · decide

/-- C1 (amended): `_title_passes_filters(title)` is true iff the title is
non-empty after trimming whitespace, contains at least one include keyword
as a substring, and contains no exclude keyword as a substring (case
sensitive, no normalization). The source performs no identity check against
the stock's name or code. -/
theorem titlePassesFilters_spec (title : String) :
    titlePassesFilters title = true ↔
      (pyStrip title.data ≠ []
        ∧ (∃ k ∈ INCLUDE_KEYWORDS, k <:+: title.data)
        ∧ (∀ k ∈ EXCLUDE_KEYWORDS, ¬ k <:+: title.data)) := by
  have hsub : ∀ kws : List (List Char),
      (∀ k ∈ kws, k ≠ [] ∧ ∀ c ∈ k, c.isWhitespace = false) →
      ((kws.any fun k => listSubOf k (pyStrip title.data)) = true ↔
        ∃ k ∈ kws, k <:+: title.data) := by
    intro kws hshape
    rw [List.any_eq_true]
    constructor
    · rintro ⟨k, hk, hsat⟩
      refine ⟨k, hk, ?_⟩
      have := (listSubOf_iff k (pyStrip title.data)).mp hsat
      exact (subOf_pyStrip_iff (hshape k hk).1 (hshape k hk).2).mp this
    · rintro ⟨k, hk, hsat⟩
      refine ⟨k, hk, ?_⟩
      rw [listSubOf_iff]
      exact (subOf_pyStrip_iff (hshape k hk).1 (hshape k hk).2).mpr hsat
  have aux : titlePassesFilters title =
      (!(pyStrip title.data).isEmpty
        && (INCLUDE_KEYWORDS.any fun k => listSubOf k (pyStrip title.data))
        && !(EXCLUDE_KEYWORDS.any fun k => listSubOf k (pyStrip title.data))) := by
    simp only [titlePassesFilters]
    cases h1 : (pyStrip title.data).isEmpty <;>
      cases h2 : (INCLUDE_KEYWORDS.any fun k => listSubOf k (pyStrip title.data)) <;>
      cases h3 : (EXCLUDE_KEYWORDS.any fun k => listSubOf k (pyStrip title.data)) <;>
      simp [h1, h2, h3]
  rw [aux]
  simp only [Bool.and_eq_true, Bool.not_eq_true']
  constructor
  · rintro ⟨⟨hne, hinc⟩, hexc⟩
    refine ⟨?_, (hsub _ include_keywords_shape).mp hinc, ?_⟩
    · intro hnil
      rw [hnil] at hne
      simp at hne
    · intro k hk hkt
      have hany := (hsub _ exclude_keywords_shape).mpr ⟨k, hk, hkt⟩
      rw [hany] at hexc
      exact Bool.noConfusion hexc
  · rintro ⟨hne, hinc, hexc⟩
    refine ⟨⟨?_, (hsub _ include_keywords_shape).mpr hinc⟩, ?_⟩
    · cases hh : (pyStrip title.data).isEmpty
      · rfl
      · exact absurd (List.isEmpty_iff.mp hh) hne
    · cases hh : (EXCLUDE_KEYWORDS.any fun k => listSubOf k (pyStrip title.data))
      · rfl
      · obtain ⟨k, hk, hkt⟩ := (hsub _ exclude_keywords_shape).mp hh
        exact (hexc k hk hkt).elim

/-! ## C2: the publication-date parser -/

/-- C2: for an input the underlying RFC-2822 parser accepts with an explicit
offset, `_parse_pubdate` returns a present timestamp denoting the same
instant at the fixed UTC+8 offset; for an empty input or one the parser
rejects (raises on), it returns absent — the function is total, so no
exception reaches the caller; a parsed value with no explicit offset is
interpreted as UTC before conversion. -/
theorem parsePubdate_spec (p : String → Option PyDateTime) (s : String) :
    (∀ dt off, s ≠ "" → p s = some dt → dt.tz = some off →
        parsePubdate p s =
          some { wall := dt.wall - off + TZ_TAIPEI_OFFSET,
                 tz := some TZ_TAIPEI_OFFSET }
          ∧ ∀ r, parsePubdate p s = some r →
              r.instantOf = dt.instantOf ∧ r.tz = some TZ_TAIPEI_OFFSET)
      ∧ (p s = none → parsePubdate p s = none)
      ∧ parsePubdate p "" = none
      ∧ (∀ dt, s ≠ "" → p s = some dt → dt.tz = none →
          parsePubdate p s =
            some { wall := dt.wall + TZ_TAIPEI_OFFSET,
                   tz := some TZ_TAIPEI_OFFSET }) := by
  refine ⟨?_, ?_, ?_, ?_⟩
  · intro dt off hs hp htz
    have hse : s.isEmpty = false := by
      cases hh : s.isEmpty
      · rfl
      · exact absurd ((String.isEmpty_iff _).mp hh) hs
    have heq : parsePubdate p s =
        some { wall := dt.wall - off + TZ_TAIPEI_OFFSET,
               tz := some TZ_TAIPEI_OFFSET } := by
      simp only [parsePubdate, hse, Bool.false_eq_true, if_false, hp, htz,
        Option.isNone_some, if_false, astimezone, PyDateTime.instantOf]
      simp
    refine ⟨heq, ?_⟩
    intro r hr
    rw [heq] at hr
    have hre := Option.some.inj hr
    subst hre
    simp [PyDateTime.instantOf, htz]
  · intro hp
    cases hh : s.isEmpty
    · simp only [parsePubdate, hh, Bool.false_eq_true, if_false, hp]
    · simp only [parsePubdate, hh, if_true]
  · have hz : "".isEmpty = true := rfl
    simp [parsePubdate, hz]
  · intro dt hs hp htz
    have hse : s.isEmpty = false := by
      cases hh : s.isEmpty
      · rfl
      · exact absurd ((String.isEmpty_iff _).mp hh) hs
    simp only [parsePubdate, hse, Bool.false_eq_true, if_false, hp, htz,
      Option.isNone_none, if_true, astimezone, PyDateTime.instantOf]
    simp

/-- C2 witness: the behaviour at a concrete parser and concrete inputs. -/
theorem parsePubdate_spec_witness :
    parsePubdate
        (fun s => if s = "Mon" then some { wall := 100, tz := some 60 }
                  else if s = "Tue" then some { wall := 100, tz := none }
                  else none) "Mon"
      = some { wall := 100 - 60 + TZ_TAIPEI_OFFSET, tz := some TZ_TAIPEI_OFFSET }
    ∧ parsePubdate
        (fun s => if s = "Mon" then some { wall := 100, tz := some 60 }
                  else if s = "Tue" then some { wall := 100, tz := none }
                  else none) "junk"
      = none
    ∧ parsePubdate
        (fun s => if s = "Mon" then some { wall := 100, tz := some 60 }
                  else if s = "Tue" then some { wall := 100, tz := none }
                  else none) ""
      = none
    ∧ parsePubdate
        (fun s => if s = "Mon" then some { wall := 100, tz := some 60 }
                  else if s = "Tue" then some { wall := 100, tz := none }
                  else none) "Tue"
      = some { wall := 100 + TZ_TAIPEI_OFFSET, tz := some TZ_TAIPEI_OFFSET } :=
  ⟨((parsePubdate_spec _ "Mon").1 { wall := 100, tz := some 60 } 60
      (by decide) (by decide) rfl).1,
   (parsePubdate_spec _ "junk").2.1 (by decide),
   (parsePubdate_spec _ "").2.2.1,
   (parsePubdate_spec _ "Tue").2.2.2 { wall := 100, tz := none }
      (by decide) (by decide) rfl⟩

/-! ## C3 and C4: the per-stock fetch loop -/

theorem fetchGo_cons_skip (p : String → Option PyDateTime)
    (resolve : String → String) (code name : String) (cutoff : Int)
    (maxI : Nat) (e : FeedEntry) (es : List FeedEntry) (acc : List NewsItem)
    (hq : entryQualifies p resolve cutoff e = false) :
    fetchGo p resolve code name cutoff maxI (e :: es) acc
      = fetchGo p resolve code name cutoff maxI es acc := by
  have h3 : titlePassesFilters e.title = false
      ∨ isStale (parsePubdate p e.pubdate) cutoff = true
      ∨ (finalUrlOf resolve e.link).isEmpty = true := by
    cases ht : titlePassesFilters e.title
    · exact Or.inl rfl
    · cases hst : isStale (parsePubdate p e.pubdate) cutoff
      · cases hu : (finalUrlOf resolve e.link).isEmpty
        · exfalso
          simp [entryQualifies, ht, hst, hu] at hq
        · exact Or.inr (Or.inr rfl)
      · exact Or.inr (Or.inl rfl)
  rcases h3 with h | h | h
  · simp [fetchGo, h]
  · cases ht : titlePassesFilters e.title
    · simp [fetchGo, ht]
    · simp [fetchGo, ht, h]
  · cases ht : titlePassesFilters e.title
    · simp [fetchGo, ht]
    · cases hst : isStale (parsePubdate p e.pubdate) cutoff
      · simp [fetchGo, ht, hst, h]
      · simp [fetchGo, ht, hst]

theorem fetchGo_cons_keep (p : String → Option PyDateTime)
    (resolve : String → String) (code name : String) (cutoff : Int)
    (maxI : Nat) (e : FeedEntry) (es : List FeedEntry) (acc : List NewsItem)
    (hq : entryQualifies p resolve cutoff e = true) :
    fetchGo p resolve code name cutoff maxI (e :: es) acc
      = (if maxI ≤ acc.length + 1
         then acc ++ [mkItem p resolve code name e]
         else fetchGo p resolve code name cutoff maxI es
                (acc ++ [mkItem p resolve code name e])) := by
  simp only [entryQualifies, Bool.and_eq_true, Bool.not_eq_true'] at hq
  obtain ⟨⟨ht, hst⟩, hu⟩ := hq
  simp [fetchGo, ht, hst, hu]

theorem fetchGo_eq (p : String → Option PyDateTime)
    (resolve : String → String) (code name : String) (cutoff : Int)
    (maxI : Nat) :
    ∀ (l : List FeedEntry) (acc : List NewsItem), acc.length < maxI →
      fetchGo p resolve code name cutoff maxI l acc
        = acc ++ ((l.filter (entryQualifies p resolve cutoff)).take
            (maxI - acc.length)).map (mkItem p resolve code name) := by
  intro l
  induction l with
  | nil => intro acc hacc; simp [fetchGo]
  | cons e es ih =>
    intro acc hacc
    cases hq : entryQualifies p resolve cutoff e
    case false =>
      rw [fetchGo_cons_skip p resolve code name cutoff maxI e es acc hq]
      have hfil : (e :: es).filter (entryQualifies p resolve cutoff)
          = es.filter (entryQualifies p resolve cutoff) := by
        simp [List.filter_cons, hq]
      rw [hfil]
      exact ih acc hacc
    case true =>
      rw [fetchGo_cons_keep p resolve code name cutoff maxI e es acc hq]
      have hfil : (e :: es).filter (entryQualifies p resolve cutoff)
          = e :: es.filter (entryQualifies p resolve cutoff) := by
        simp [List.filter_cons, hq]
      rw [hfil]
      obtain ⟨k, hk⟩ : ∃ k, maxI - acc.length = k + 1 :=
        ⟨maxI - acc.length - 1, by omega⟩
      rw [hk, List.take_succ_cons, List.map_cons]
      by_cases hle : maxI ≤ acc.length + 1
      · rw [if_pos hle]
        have hk0 : k = 0 := by omega
        subst hk0
        simp
      · rw [if_neg hle]
        push_neg at hle
        have hlen2 : (acc ++ [mkItem p resolve code name e]).length < maxI := by
          simp
          omega
        rw [ih _ hlen2]
        have hk2 : maxI - (acc ++ [mkItem p resolve code name e]).length = k := by
          simp
          omega
        rw [hk2]
        simp

/-- C3: on a successfully fetched feed, `_fetch_google_news_for_stock`
returns exactly the first up-to-`NEWS_PER_STOCK` entries, in feed order,
that pass the keyword filter, the recency check and the
non-empty-resolved-URL check; the result never exceeds `NEWS_PER_STOCK`
items; and the scan terminates early: entries after the point where
`NEWS_PER_STOCK` qualifying items have been collected cannot change the
result. -/
theorem fetchGoogleNewsForStock_spec (p : String → Option PyDateTime)
    (resolve : String → String) (code name : String) (now : Int)
    (entries : List FeedEntry) :
    (fetchGoogleNewsForStock (.ok entries) p resolve code name now
        = .ok (((entries.filter
              (entryQualifies p resolve (cutoffOf now))).take
            NEWS_PER_STOCK).map (mkItem p resolve code name)))
      ∧ (∀ res,
          fetchGoogleNewsForStock (.ok entries) p resolve code name now
            = .ok res → res.length ≤ NEWS_PER_STOCK)
      ∧ (∀ extra, NEWS_PER_STOCK ≤
            (entries.filter (entryQualifies p resolve (cutoffOf now))).length →
          fetchGoogleNewsForStock (.ok (entries ++ extra)) p resolve code
              name now
            = fetchGoogleNewsForStock (.ok entries) p resolve code name now) := by
  have hbase : ∀ l : List FeedEntry,
      fetchGoogleNewsForStock (.ok l) p resolve code name now
        = .ok (((l.filter (entryQualifies p resolve (cutoffOf now))).take
            NEWS_PER_STOCK).map (mkItem p resolve code name)) := by
    intro l
    show Except.ok (fetchGo p resolve code name (cutoffOf now)
        NEWS_PER_STOCK l []) = _
    rw [fetchGo_eq p resolve code name (cutoffOf now) NEWS_PER_STOCK l []
      (by simp [NEWS_PER_STOCK])]
    simp
  refine ⟨hbase entries, ?_, ?_⟩
  · intro res hres
    rw [hbase entries] at hres
    have hres2 := Except.ok.inj hres
    rw [← hres2]
    simp only [List.length_map]
    exact List.length_take_le _ _
  · intro extra hlen
    rw [hbase entries, hbase (entries ++ extra)]
    rw [List.filter_append]
    rw [List.take_append_eq_append_take]
    rw [Nat.sub_eq_zero_of_le hlen, List.take_zero, List.append_nil]

/-- C3 witness: a concrete feed of four qualifying entries; the fourth is
not scanned once three items are held, and the cap holds. -/
theorem fetchGoogleNewsForStock_spec_witness :
    fetchGoogleNewsForStock
        (.ok ([⟨"甲公司財報", "u1", ""⟩, ⟨"乙公司營收", "u2", ""⟩,
               ⟨"丙公司財報", "u3", ""⟩] ++ [⟨"丁公司財報", "u4", ""⟩]))
        (fun _ => none) (fun u => u) "2330" "台積電" 0
      = fetchGoogleNewsForStock
          (.ok [⟨"甲公司財報", "u1", ""⟩, ⟨"乙公司營收", "u2", ""⟩,
                ⟨"丙公司財報", "u3", ""⟩])
          (fun _ => none) (fun u => u) "2330" "台積電" 0
    ∧ ∀ res,
        fetchGoogleNewsForStock
            (.ok [⟨"甲公司財報", "u1", ""⟩, ⟨"乙公司營收", "u2", ""⟩,
                  ⟨"丙公司財報", "u3", ""⟩])
            (fun _ => none) (fun u => u) "2330" "台積電" 0
          = .ok res → res.length ≤ NEWS_PER_STOCK :=
  ⟨(fetchGoogleNewsForStock_spec (fun _ => none) (fun u => u) "2330" "台積電" 0
      [⟨"甲公司財報", "u1", ""⟩, ⟨"乙公司營收", "u2", ""⟩,
       ⟨"丙公司財報", "u3", ""⟩]).2.2 [⟨"丁公司財報", "u4", ""⟩] (by decide),
   (fetchGoogleNewsForStock_spec (fun _ => none) (fun u => u) "2330" "台積電" 0
      [⟨"甲公司財報", "u1", ""⟩, ⟨"乙公司營收", "u2", ""⟩,
       ⟨"丙公司財報", "u3", ""⟩]).2.1⟩

/-- C4: an entry whose publication date fails to parse is never skipped by
the recency check — its staleness flag is false, its qualification does not
depend on the cutoff at all — and an entry is skipped for staleness only
when its parsed date is present and its instant is before the cutoff, in
which case the loop drops it and moves on. -/
theorem fetch_recency_spec (p : String → Option PyDateTime)
    (resolve : String → String) (code name : String) (cutoff : Int)
    (maxI : Nat) (e : FeedEntry) (es : List FeedEntry)
    (acc : List NewsItem) :
    (parsePubdate p e.pubdate = none →
        isStale (parsePubdate p e.pubdate) cutoff = false)
      ∧ (isStale (parsePubdate p e.pubdate) cutoff = true ↔
          ∃ d, parsePubdate p e.pubdate = some d ∧ d.instantOf < cutoff)
      ∧ (∀ c1 c2 : Int, parsePubdate p e.pubdate = none →
          entryQualifies p resolve c1 e = entryQualifies p resolve c2 e)
      ∧ (titlePassesFilters e.title = true →
          isStale (parsePubdate p e.pubdate) cutoff = true →
          fetchGo p resolve code name cutoff maxI (e :: es) acc
            = fetchGo p resolve code name cutoff maxI es acc) := by
  refine ⟨?_, ?_, ?_, ?_⟩
  · intro h
    simp [isStale, h]
  · cases h : parsePubdate p e.pubdate with
    | none => simp [isStale]
    | some d => simp [isStale]
  · intro c1 c2 h
    simp [entryQualifies, isStale, h]
  · intro ht hst
    apply fetchGo_cons_skip
    simp [entryQualifies, hst]

/-- C4 witness: concrete behaviour — a date-less entry is not stale under
any cutoff, and a concretely stale entry is skipped by the loop. -/
theorem fetch_recency_spec_witness :
    isStale (parsePubdate (fun _ => none) "") 10 = false
    ∧ (∀ c1 c2 : Int, entryQualifies (fun _ => none) (fun u => u) c1
          ⟨"甲公司財報", "u1", ""⟩
        = entryQualifies (fun _ => none) (fun u => u) c2
            ⟨"甲公司財報", "u1", ""⟩)
    ∧ fetchGo (fun _ => some { wall := 0, tz := some 0 }) (fun u => u)
        "2330" "台積電" 10 NEWS_PER_STOCK [⟨"甲公司財報", "u1", "d"⟩] []
      = fetchGo (fun _ => some { wall := 0, tz := some 0 }) (fun u => u)
          "2330" "台積電" 10 NEWS_PER_STOCK [] [] :=
  ⟨(fetch_recency_spec (fun _ => none) (fun u => u) "2330" "台積電" 10
      NEWS_PER_STOCK ⟨"甲公司財報", "u1", ""⟩ [] []).1 rfl,
   fun c1 c2 =>
     (fetch_recency_spec (fun _ => none) (fun u => u) "2330" "台積電" 10
        NEWS_PER_STOCK ⟨"甲公司財報", "u1", ""⟩ [] []).2.2.1 c1 c2 rfl,
   (fetch_recency_spec (fun _ => some { wall := 0, tz := some 0 })
      (fun u => u) "2330" "台積電" 10 NEWS_PER_STOCK
      ⟨"甲公司財報", "u1", "d"⟩ [] []).2.2.2 (by decide) (by decide)⟩

/-! ## C5 and C10: URL deduplication -/

theorem firstOccAux {α : Type} (key : α → String) (u : String) :
    ∀ (n : Nat) (l : List α), l.length ≤ n →
      (firstOccurrencesBy key l).filter (fun y => key y == u)
        = (l.filter (fun y => key y == u)).take 1
  | _, [], _ => by simp [firstOccurrencesBy]
  | 0, x :: xs, h => by simp at h
  | Nat.succ n, x :: xs, h => by
    have hrec := firstOccAux key u n (xs.filter fun y => key y != key x)
      (le_trans (List.length_filter_le _ _) (by simpa using h))
    rw [show firstOccurrencesBy key (x :: xs)
        = x :: firstOccurrencesBy key (xs.filter fun y => key y != key x)
      from by simp [firstOccurrencesBy]]
    by_cases hxu : key x = u
    · have hnil : (xs.filter fun y => key y != key x).filter
          (fun y => key y == u) = [] := by
        rw [List.filter_eq_nil_iff]
        intro y hy
        have hy2 := (List.mem_filter.mp hy).2
        simp only [bne_iff_ne, ne_eq] at hy2
        simp only [beq_iff_eq]
        intro hyu
        exact hy2 (by rw [hyu, hxu])
      rw [List.filter_cons, if_pos (by simp [hxu]), hrec, hnil]
      rw [List.filter_cons, if_pos (by simp [hxu])]
      simp
    · have hsame : (xs.filter fun y => key y != key x).filter
          (fun y => key y == u) = xs.filter (fun y => key y == u) := by
        rw [List.filter_filter]
        apply List.filter_congr
        intro y _
        cases hyu : (key y == u)
        · simp
        · simp only [beq_iff_eq] at hyu
          simp [bne_iff_ne, hyu, hxu]
          exact fun h => hxu h.symm
      rw [List.filter_cons, if_neg (by simp [hxu]), hrec, hsame]
      rw [List.filter_cons, if_neg (by simp [hxu])]

theorem firstOccurrencesBy_filter {α : Type} (key : α → String) (u : String)
    (l : List α) :
    (firstOccurrencesBy key l).filter (fun y => key y == u)
      = (l.filter (fun y => key y == u)).take 1 :=
  firstOccAux key u l.length l le_rfl

theorem renderUrlListGo_eq :
    ∀ (l : List NewsItem) (seen acc : List String),
      renderUrlListGo seen acc l
        = acc ++ firstOccurrencesBy (fun u => u)
            ((l.map (fun n => n.url)).filter (fun u => decide (u ∉ seen)))
  | [], seen, acc => by simp [renderUrlListGo, firstOccurrencesBy]
  | n :: ns, seen, acc => by
    by_cases hn : n.url ∈ seen
    · rw [show renderUrlListGo seen acc (n :: ns)
          = renderUrlListGo seen acc ns from by simp [renderUrlListGo, hn]]
      rw [renderUrlListGo_eq ns seen acc]
      rw [List.map_cons, List.filter_cons, if_neg (by simp [hn])]
    · rw [show renderUrlListGo seen acc (n :: ns)
          = renderUrlListGo (n.url :: seen) (acc ++ [n.url]) ns from by
        simp [renderUrlListGo, hn]]
      rw [renderUrlListGo_eq ns (n.url :: seen) (acc ++ [n.url])]
      rw [List.map_cons, List.filter_cons, if_pos (by simp [hn])]
      rw [show firstOccurrencesBy (fun u => u)
            (n.url :: (ns.map (fun m => m.url)).filter
              (fun u => decide (u ∉ seen)))
          = n.url :: firstOccurrencesBy (fun u => u)
              (((ns.map (fun m => m.url)).filter
                (fun u => decide (u ∉ seen))).filter
                (fun v => v != n.url))
        from by simp [firstOccurrencesBy]]
      rw [List.filter_filter]
      rw [show (((ns.map (fun m => m.url)).filter
            (fun v => v != n.url && decide (v ∉ seen))))
          = ((ns.map (fun m => m.url)).filter
            (fun u => decide (u ∉ n.url :: seen))) from by
        apply List.filter_congr
        intro v _
        by_cases hv : v = n.url
        · simp [hv]
        · simp [hv, List.mem_cons]]
      simp

theorem dedupNewsGo_eq :
    ∀ (l : List NewsItem) (seen : List String) (acc : List NewsItem),
      dedupNewsGo seen acc l
        = acc ++ firstOccurrencesBy (fun n => n.url)
            (l.filter (fun n => decide (n.url ∉ seen)))
  | [], seen, acc => by simp [dedupNewsGo, firstOccurrencesBy]
  | n :: ns, seen, acc => by
    by_cases hn : n.url ∈ seen
    · rw [show dedupNewsGo seen acc (n :: ns)
          = dedupNewsGo seen acc ns from by simp [dedupNewsGo, hn]]
      rw [dedupNewsGo_eq ns seen acc]
      rw [List.filter_cons, if_neg (by simp [hn])]
    · rw [show dedupNewsGo seen acc (n :: ns)
          = dedupNewsGo (n.url :: seen) (acc ++ [n]) ns from by
        simp [dedupNewsGo, hn]]
      rw [dedupNewsGo_eq ns (n.url :: seen) (acc ++ [n])]
      rw [List.filter_cons, if_pos (by simp [hn])]
      rw [show firstOccurrencesBy (fun n => n.url)
            (n :: ns.filter (fun m => decide (m.url ∉ seen)))
          = n :: firstOccurrencesBy (fun n => n.url)
              ((ns.filter (fun m => decide (m.url ∉ seen))).filter
                (fun m => m.url != n.url))
        from by simp [firstOccurrencesBy]]
      rw [List.filter_filter]
      rw [show ((ns.filter (fun m => m.url != n.url && decide (m.url ∉ seen))))
          = (ns.filter (fun m => decide (m.url ∉ n.url :: seen))) from by
        apply List.filter_congr
        intro m _
        by_cases hm : m.url = n.url
        · simp [hm]
        · simp [hm, List.mem_cons]]
      simp

theorem dedupNews_eq (l : List NewsItem) :
    dedupNews l = firstOccurrencesBy (fun n => n.url) l := by
  rw [dedupNews, dedupNewsGo_eq l [] []]
  rw [show l.filter (fun n => decide (n.url ∉ ([] : List String))) = l from by
    rw [List.filter_eq_self]
    intro a _
    simp]
  simp

/-- C5: the "copy URLs" list of `_render_report` holds each distinct URL of
the input news list exactly once, in order of the URL's first appearance. -/
theorem renderUrlList_spec (news : List NewsItem) :
    renderUrlList news
        = firstOccurrencesBy (fun u => u) (news.map (fun n => n.url))
      ∧ ∀ u, (renderUrlList news).count u
          = if u ∈ news.map (fun n => n.url) then 1 else 0 := by
  have hbase : renderUrlList news
      = firstOccurrencesBy (fun u => u) (news.map (fun n => n.url)) := by
    rw [renderUrlList, renderUrlListGo_eq news [] []]
    rw [show (news.map (fun n => n.url)).filter
          (fun u => decide (u ∉ ([] : List String)))
        = news.map (fun n => n.url) from by
      rw [List.filter_eq_self]
      intro a _
      simp]
    simp
  refine ⟨hbase, ?_⟩
  intro u
  rw [hbase, List.count_eq_countP, List.countP_eq_length_filter]
  rw [show (fun y => y == u) = (fun y => (fun v : String => v) y == u)
    from rfl]
  rw [firstOccurrencesBy_filter (fun v : String => v) u
    (news.map (fun n => n.url))]
  by_cases hu : u ∈ news.map (fun n => n.url)
  · rw [if_pos hu]
    have hne : (news.map (fun n => n.url)).filter
        (fun y => (fun v : String => v) y == u) ≠ [] := by
      intro hnil
      have := List.filter_eq_nil_iff.mp hnil u hu
      simp at this
    cases hfe : (news.map (fun n => n.url)).filter
        (fun y => (fun v : String => v) y == u) with
    | nil => exact absurd hfe hne
    | cons a as => simp
  · rw [if_neg hu]
    have hnil : (news.map (fun n => n.url)).filter
        (fun y => (fun v : String => v) y == u) = [] := by
      rw [List.filter_eq_nil_iff]
      intro a ha
      simp only [beq_iff_eq]
      intro hau
      exact hu (hau ▸ ha)
    rw [hnil]
    simp

theorem dictFind_dictAppend (d : List (String × List NewsItem)) (k : String)
    (m : NewsItem) (c : String) :
    dictFind (dictAppend d k m) c
      = if k = c then some ((dictFind d c).getD [] ++ [m])
        else dictFind d c := by
  induction d with
  | nil =>
    by_cases hkc : k = c
    · simp [dictAppend, dictFind, hkc]
    · simp [dictAppend, dictFind, hkc]
  | cons kv rest ih =>
    obtain ⟨k0, v0⟩ := kv
    by_cases hk0 : k0 = k
    · subst hk0
      by_cases hkc : k0 = c
      · subst hkc
        simp [dictAppend, dictFind]
      · simp [dictAppend, dictFind, hkc]
    · simp only [dictAppend, if_neg hk0]
      by_cases h0c : k0 = c
      · subst h0c
        have hkc : ¬ k = k0 := fun h => hk0 h.symm
        simp [dictFind, hkc]
      · simp [dictFind, h0c, ih]

theorem byCodeFold_get :
    ∀ (l : List NewsItem) (d : List (String × List NewsItem)) (c : String),
      (dictFind (l.foldl (fun d n => dictAppend d n.stock_code n) d) c).getD []
        = (dictFind d c).getD []
            ++ l.filter (fun n => n.stock_code == c)
  | [], d, c => by simp
  | n :: ns, d, c => by
    rw [List.foldl_cons, byCodeFold_get ns (dictAppend d n.stock_code n) c]
    rw [dictFind_dictAppend]
    by_cases hc : n.stock_code = c
    · rw [if_pos hc, List.filter_cons, if_pos (by simp [hc])]
      simp
    · rw [if_neg hc, List.filter_cons, if_neg (by simp [hc])]

theorem byCodeBuild_get (l : List NewsItem) (c : String) :
    (dictFind (byCodeBuild l) c).getD []
      = l.filter (fun n => n.stock_code == c) := by
  rw [byCodeBuild, byCodeFold_get l [] c]
  simp [dictFind]

/-- C10: `main` deduplicates the accumulated news across stocks by URL,
keeping only the first occurrence: among the items sharing the first
occurrence's URL only that first item survives the dedup, it is present in
its own stock's report group, and any other stock's rendered section
contains no item with that URL. -/
theorem mainDedup_spec (l1 l2 : List NewsItem) (n : NewsItem)
    (hfirst : ∀ m ∈ l1, m.url ≠ n.url) :
    ((dedupNews (l1 ++ n :: l2)).filter (fun m => m.url == n.url) = [n])
      ∧ n ∈ (dictFind (byCodeBuild (dedupNews (l1 ++ n :: l2)))
          n.stock_code).getD []
      ∧ (∀ c, c ≠ n.stock_code →
          ∀ m ∈ sectionItems (dedupNews (l1 ++ n :: l2)) c,
            m.url ≠ n.url) := by
  have hfil : (dedupNews (l1 ++ n :: l2)).filter (fun m => m.url == n.url)
      = [n] := by
    rw [dedupNews_eq]
    rw [show (fun m : NewsItem => m.url == n.url)
        = (fun m : NewsItem => (fun x : NewsItem => x.url) m == n.url)
      from rfl]
    rw [firstOccurrencesBy_filter (fun x : NewsItem => x.url) n.url
      (l1 ++ n :: l2)]
    rw [List.filter_append]
    rw [show l1.filter (fun m : NewsItem =>
          (fun x : NewsItem => x.url) m == n.url) = [] from by
      rw [List.filter_eq_nil_iff]
      intro m hm
      simpa using hfirst m hm]
    rw [List.filter_cons, if_pos (by simp)]
    simp
  have hmem : n ∈ dedupNews (l1 ++ n :: l2) := by
    have : n ∈ (dedupNews (l1 ++ n :: l2)).filter
        (fun m => m.url == n.url) := by
      rw [hfil]
      simp
    exact List.mem_of_mem_filter this
  refine ⟨hfil, ?_, ?_⟩
  · rw [byCodeBuild_get]
    rw [List.mem_filter]
    exact ⟨hmem, by simp⟩
  · intro c hc m hm hmu
    have hg : m ∈ (dictFind (byCodeBuild (dedupNews (l1 ++ n :: l2))) c).getD
        [] := List.mem_of_mem_take hm
    rw [byCodeBuild_get] at hg
    have hg2 := List.mem_filter.mp hg
    have hmn : m ∈ (dedupNews (l1 ++ n :: l2)).filter
        (fun m => m.url == n.url) :=
      List.mem_filter.mpr ⟨hg2.1, by simp [hmu]⟩
    rw [hfil] at hmn
    have hmeq : m = n := by simpa using hmn
    subst hmeq
    have : m.stock_code = c := by simpa using hg2.2
    exact hc this.symm

/-- C10 witness: two stocks collect an item with the same URL "u"; after the
orchestrator's dedup the first stock's item survives alone, sits in the
first stock's group, and the second stock's section holds no item with that
URL. -/
theorem mainDedup_spec_witness :
    ((dedupNews [⟨"2330", "台積電", "舊聞", "v", none⟩,
                 ⟨"2330", "台積電", "甲公司財報", "u", none⟩,
                 ⟨"2317", "鴻海", "乙公司財報", "u", none⟩]).filter
        (fun m => m.url == "u")
      = [⟨"2330", "台積電", "甲公司財報", "u", none⟩])
    ∧ (⟨"2330", "台積電", "甲公司財報", "u", none⟩ : NewsItem)
        ∈ (dictFind (byCodeBuild (dedupNews
            [⟨"2330", "台積電", "舊聞", "v", none⟩,
             ⟨"2330", "台積電", "甲公司財報", "u", none⟩,
             ⟨"2317", "鴻海", "乙公司財報", "u", none⟩])) "2330").getD []
    ∧ (∀ c, c ≠ "2330" →
        ∀ m ∈ sectionItems (dedupNews
            [⟨"2330", "台積電", "舊聞", "v", none⟩,
             ⟨"2330", "台積電", "甲公司財報", "u", none⟩,
             ⟨"2317", "鴻海", "乙公司財報", "u", none⟩]) c,
          m.url ≠ "u") :=
  mainDedup_spec [⟨"2330", "台積電", "舊聞", "v", none⟩]
    [⟨"2317", "鴻海", "乙公司財報", "u", none⟩]
    ⟨"2330", "台積電", "甲公司財報", "u", none⟩ (by decide)

/-! ## C6 and C9: error handling of the fetchers and the orchestrator -/

/-- C6 counterexample: a transport failure of the (single) revenue source is
not treated as zero rows — `_fetch_twse_monthly_revenue` has no try/except,
so the error comes back out, and `main` calls it outside any guard, so the
run aborts instead of continuing. -/
theorem revenueFailure_claim_false :
    fetchTwseMonthlyRevenue (.error "boom") = .error "boom"
      ∧ fetchTwseMonthlyRevenue (.error "boom") ≠ .ok []
      ∧ mainRun "2026-01-01" (.error "boom") (fun _ _ => .ok []) []
          = .error "boom" := by
  refine ⟨rfl, ?_, rfl⟩
  intro h
  exact Except.noConfusion h

/-- C6 (amended): there is a single revenue source in the code; a transport
failure while fetching it propagates out of `_fetch_twse_monthly_revenue`
unhandled and aborts the whole run at its call site in `main`. -/
theorem revenueFailure_propagates (e : String) (dateStr : String)
    (fetchNews : String → String → Except String (List NewsItem))
    (stocks : List (String × String)) :
    fetchTwseMonthlyRevenue (.error e) = .error e
      ∧ mainRun dateStr (.error e) fetchNews stocks = .error e :=
  ⟨rfl, rfl⟩

/-- C9: a transport failure while fetching one stock's feed propagates out
of `_fetch_google_news_for_stock`; the orchestrator's per-stock guard turns
a failing stock into an empty contribution, identical to a stock that
fetched no news; and whatever the per-stock fetches do, `main` still
completes and produces the report once the revenue fetch has succeeded. -/
theorem perStockFailure_spec :
    (∀ (e : String) (p : String → Option PyDateTime)
        (resolve : String → String) (code name : String) (now : Int),
        fetchGoogleNewsForStock (.error e) p resolve code name now
          = .error e)
      ∧ (∀ (fetchNews : String → String → Except String (List NewsItem))
          (stocks : List (String × String)) (c0 n0 err : String),
          collectNews
              (fun c n => if c = c0 ∧ n = n0 then .error err
                          else fetchNews c n) stocks
            = collectNews
                (fun c n => if c = c0 ∧ n = n0 then .ok []
                            else fetchNews c n) stocks)
      ∧ (∀ (dateStr : String) (rows : List Row)
          (fetchNews : String → String → Except String (List NewsItem))
          (stocks : List (String × String)), ∃ rpt,
          mainRun dateStr (.ok rows) fetchNews stocks = .ok rpt) := by
  refine ⟨fun _ _ _ _ _ _ => rfl, ?_, fun _ _ _ _ => ⟨_, rfl⟩⟩
  intro fetchNews stocks c0 n0 err
  induction stocks with
  | nil => rfl
  | cons s ss ih =>
    obtain ⟨c, n⟩ := s
    by_cases h : c = c0 ∧ n = n0
    · simp only [collectNews, if_pos h, ih]
    · simp only [collectNews, if_neg h, ih]

/-! ## C8: the configuration constants -/

/-- C8 counterexample: in an environment that binds every variable name to
"99", the lookback window and the per-stock cap still evaluate to the fixed
literals 7 and 3 — the source never consults the environment, so no named
environment variable can override them. -/
theorem envOverride_claim_false :
    daysLookbackOfEnv (fun _ => some "99") = 7
      ∧ newsPerStockOfEnv (fun _ => some "99") = 3
      ∧ (7 : Nat) ≠ 99 ∧ (3 : Nat) ≠ 99 :=
  ⟨rfl, rfl, by decide, by decide⟩

/-- C8 (amended): the lookback window in days and the per-stock news cap are
the fixed module constants 7 and 3; no environment override exists in the
code. -/
theorem envOverride_amended (env : String → Option String) :
    daysLookbackOfEnv env = DAYS_LOOKBACK
      ∧ newsPerStockOfEnv env = NEWS_PER_STOCK
      ∧ DAYS_LOOKBACK = 7 ∧ NEWS_PER_STOCK = 3 :=
  ⟨rfl, rfl, rfl, rfl⟩

/-! ## C7: the numeric formatter (spec-modelled) -/

theorem takeWhile_append_mid (p : Char → Bool) :
    ∀ (ip fp : List Char), (∀ c ∈ ip, p c = true) → p '.' = false →
      (ip ++ '.' :: fp).takeWhile p = ip
        ∧ (ip ++ '.' :: fp).dropWhile p = '.' :: fp
  | [], fp, _, hdot => by
    simp [List.takeWhile, List.dropWhile, hdot]
  | a :: as, fp, hip, hdot => by
    have ha : p a = true := hip a (by simp)
    have hrec := takeWhile_append_mid p as fp
      (fun c hc => hip c (by simp [hc])) hdot
    simp only [List.cons_append, List.takeWhile_cons, List.dropWhile_cons, ha,
      if_true]
    exact ⟨by rw [hrec.1], by rw [hrec.2]⟩

theorem splitDot_of_decimal (ip fp : List Char) (hip : ∀ c ∈ ip, c.isDigit = true) :
    splitDot (ip ++ '.' :: fp) = some (ip, fp) := by
  have hp : ∀ c ∈ ip, (c != '.') = true := by
    intro c hc
    have hd := hip c hc
    simp only [bne_iff_ne, ne_eq]
    intro hcd
    rw [hcd] at hd
    exact Bool.noConfusion hd
  have hdot : (('.' : Char) != '.') = false := by decide
  have h := takeWhile_append_mid (fun c => c != '.') ip fp hp hdot
  rw [splitDot, h.2, h.1]
  rfl

/-- C7 (spec-modelled): the numeric formatter maps "1234567" to "1,234,567"
and "1234567.00" to "1,234,567", returns "12.5" unchanged, renders any
all-digits string with thousands separators, truncates any
digits-dot-trailing-zeros string to its integer part with thousands
separators, and returns every other string unchanged. -/
theorem formatIntLike_spec :
    formatIntLike "1234567" = "1,234,567"
      ∧ formatIntLike "1234567.00" = "1,234,567"
      ∧ formatIntLike "12.5" = "12.5"
      ∧ (∀ s : String, s.data ≠ [] → (∀ c ∈ s.data, c.isDigit = true) →
          formatIntLike s = ⟨groupThousands s.data⟩)
      ∧ (∀ (s : String) (ip fp : List Char), s.data = ip ++ '.' :: fp →
          ip ≠ [] → (∀ c ∈ ip, c.isDigit = true) → fp ≠ [] →
          (∀ c ∈ fp, c = '0') →
          formatIntLike s = ⟨groupThousands ip⟩)
      ∧ (∀ s : String,
          ¬(s.data ≠ [] ∧ ∀ c ∈ s.data, c.isDigit = true) →
          (∀ ip fp, splitDot s.data = some (ip, fp) →
            ¬(ip ≠ [] ∧ (∀ c ∈ ip, c.isDigit = true) ∧ fp ≠ []
              ∧ ∀ c ∈ fp, c = '0')) →
          formatIntLike s = s) := by
  refine ⟨by decide, by decide, by decide, ?_, ?_, ?_⟩
  · intro s hne hdig
    have h1 : (!s.data.isEmpty && s.data.all (fun c => c.isDigit)) = true := by
      rw [Bool.and_eq_true, List.all_eq_true]
      refine ⟨?_, hdig⟩
      cases hh : s.data.isEmpty
      · rfl
      · exact absurd (List.isEmpty_iff.mp hh) hne
    simp only [formatIntLike, h1, if_true]
  · intro s ip fp hsplit hipne hdig hfpne hzero
    have hdotmem : ('.' : Char) ∈ s.data := by
      rw [hsplit]
      simp
    have h1 : (!s.data.isEmpty && s.data.all (fun c => c.isDigit)) = false := by
      cases hall : s.data.all (fun c => c.isDigit)
      · simp
      · have := List.all_eq_true.mp hall '.' hdotmem
        exact absurd this (by decide)
    have hsd : splitDot s.data = some (ip, fp) := by
      rw [hsplit]
      exact splitDot_of_decimal ip fp hdig
    have h2 : (!ip.isEmpty && ip.all (fun c => c.isDigit)
        && !fp.isEmpty && fp.all (fun c => c == '0')) = true := by
      simp only [Bool.and_eq_true, List.all_eq_true]
      refine ⟨⟨⟨?_, hdig⟩, ?_⟩, ?_⟩
      · cases hh : ip.isEmpty
        · rfl
        · exact absurd (List.isEmpty_iff.mp hh) hipne
      · cases hh : fp.isEmpty
        · rfl
        · exact absurd (List.isEmpty_iff.mp hh) hfpne
      · intro c hc
        simp [hzero c hc]
    simp only [formatIntLike, h1, Bool.false_eq_true, if_false, hsd, h2,
      if_true]
  · intro s hnotall hnotdec
    have h1 : (!s.data.isEmpty && s.data.all (fun c => c.isDigit)) = false := by
      cases hh : (!s.data.isEmpty && s.data.all (fun c => c.isDigit))
      · rfl
      · rw [Bool.and_eq_true, List.all_eq_true] at hh
        exfalso
        apply hnotall
        refine ⟨?_, hh.2⟩
        intro hnil
        rw [hnil] at hh
        exact Bool.noConfusion hh.1
    cases hsd : splitDot s.data with
    | none => simp only [formatIntLike, h1, Bool.false_eq_true, if_false, hsd]
    | some pr =>
      obtain ⟨ip, fp⟩ := pr
      have hcond := hnotdec ip fp hsd
      have h2 : (!ip.isEmpty && ip.all (fun c => c.isDigit)
          && !fp.isEmpty && fp.all (fun c => c == '0')) = false := by
        cases hh : (!ip.isEmpty && ip.all (fun c => c.isDigit)
            && !fp.isEmpty && fp.all (fun c => c == '0'))
        · rfl
        · simp only [Bool.and_eq_true, List.all_eq_true] at hh
          exfalso
          apply hcond
          refine ⟨?_, hh.1.1.2, ?_, ?_⟩
          · intro hnil
            rw [hnil] at hh
            exact Bool.noConfusion hh.1.1.1
          · intro hnil
            rw [hnil] at hh
            exact Bool.noConfusion hh.1.2
          · intro c hc
            have := hh.2 c hc
            simpa using this
      simp only [formatIntLike, h1, Bool.false_eq_true, if_false, hsd, h2]

/-- C7 witness: the clauses applied at concrete strings. -/
theorem formatIntLike_spec_witness :
    formatIntLike "12345" = "12,345"
      ∧ formatIntLike "7.000" = "7"
      ∧ formatIntLike "abc" = "abc" := by
  refine ⟨?_, ?_, ?_⟩
  · have h := formatIntLike_spec.2.2.2.1 "12345" (by decide) (by decide)
    rw [h]
    decide
  · have h := formatIntLike_spec.2.2.2.2.1 "7.000" ['7'] ['0', '0', '0']
      (by decide) (by decide) (by decide) (by decide) (by decide)
    rw [h]
    decide
  · exact formatIntLike_spec.2.2.2.2.2 "abc" (by decide)
      (fun ip fp hsp => by
        rw [show splitDot "abc".data = none from by decide] at hsp
        exact Option.noConfusion hsp)
